import Mathlib

/-!
Shallow embedding of `cmd/views/profilie_list/view.go` (Go package
`profile_list`) of the daytona repository, together with the small part of its
collaborators that the view code drives: the charmbracelet bubbles
`table.Model` (rows, columns, cursor, focus — styling and height are purely
presentational and are not modelled) and the bubbletea event loop.

Modelling conventions: Go `int` values that are non-negative at every call
site (terminal widths, column widths, byte lengths) are `Nat`; the table
cursor, which the bubbles library clamps against `len(rows)-1` and which is
therefore `-1` for an empty table, is `Int`.  Go operations that can panic —
indexing `row[0]` and slicing `row[:k]` past the length — return `Option`,
with `none` standing for the panic.
-/

namespace ProfileList

/-- A table column, `table.Column{Title string, Width int}`. -/
structure Column where
  title : String
  width : Nat
deriving DecidableEq

/-- A table row, `table.Row = []string`. -/
abbrev Row := List String

/-- The fixed column schema `columns` of view.go. -/
def columns : List Column :=
  [⟨"Id", 10⟩, ⟨"Name", 20⟩, ⟨"Active", 10⟩, ⟨"Hostname", 15⟩,
   ⟨"SSH port", 10⟩, ⟨"SSH user", 10⟩, ⟨"SSH password", 15⟩,
   ⟨"SSH private key path", 20⟩]

/-- `var NewProfileId = "+"`. -/
def NewProfileId : String := "+"

/-- Modelled from the spec: the auth part of `config.Profile` (the `config`
package is not in `src/`) — "auth credentials (at most one of: password,
private-key path)" plus the SSH user; the Go `*string` fields become
`Option String`. -/
structure ProfileAuth where
  user : String
  password : Option String
  privateKeyPath : Option String

/-- Modelled from the spec: `config.Profile` as consumed by view.go — a unique
identifier, a display name, a connection target (hostname, port) and auth. -/
structure Profile where
  id : String
  name : String
  hostname : String
  port : Nat
  auth : ProfileAuth

/-- `fmt.Sprintf("%t", b)`. -/
def boolText (b : Bool) : String := if b then "true" else "false"

/-- `strings.Repeat("*", n)`. -/
def starMask (n : Nat) : String := String.mk (List.replicate n '*')

/-- One iteration of the row-building loop in `render`: the six base cells,
then the auth extension (private-key branch first, password branch second),
then the two sentinel-identifier overrides.  Go's `len(*profile.Auth.Password)`
is a byte length, hence `utf8ByteSize`. -/
def formatRow (profile : Profile) (activeProfileId : String) : Row :=
  let base : Row := [profile.id, profile.name,
    boolText (profile.id == activeProfileId), profile.hostname,
    toString profile.port, profile.auth.user]
  let row : Row :=
    match profile.auth.privateKeyPath with
    | some path => base ++ ["-", path]
    | none =>
      match profile.auth.password with
      | some password => base ++ [starMask password.utf8ByteSize, "-"]
      | none => base
  if profile.id = "default" then
    [profile.id, profile.name, boolText (profile.id == activeProfileId),
     "-", "-", "-", "-", "-"]
  else if profile.id = NewProfileId then
    [profile.id, profile.name, "", "", "", "", "", ""]
  else row

/-- The rows `render` builds from the profile list. -/
def renderRows (profileList : List Profile) (activeProfileId : String) :
    List Row :=
  profileList.map (fun p => formatRow p activeProfileId)

/-- The `activeProfileRow` accumulator of `render`: the index of the last
profile whose id equals `activeProfileId`, `0` if there is none. -/
def activeProfileRow (profileList : List Profile) (activeProfileId : String) :
    Int :=
  profileList.enum.foldl
    (fun acc x => if x.2.id = activeProfileId then (x.1 : Int) else acc) 0

/-- The column-fitting loop of `getRowsAndCols`: walk the columns accumulating
`colWidth`, breaking at the first column with `colWidth + col.Width > width`. -/
def fitColsAux (colWidth width : Nat) : List Column → List Column
  | [] => []
  | c :: rest =>
    if colWidth + c.width > width then []
    else c :: fitColsAux (colWidth + c.width) width rest

/-- The visible columns `getRowsAndCols` computes for a terminal width. -/
def fitColumns (width : Nat) : List Column := fitColsAux 0 width columns

/-- Cumulative width of a list of columns. -/
def sumWidths (cs : List Column) : Nat := (cs.map Column.width).sum

/-- The projection `row[:k]` of `getRowsAndCols`.  The Go slice expression
panics when `k` exceeds the row's length (the rows at hand have capacity equal
to length), modelled by `none`. -/
def projectRow (row : Row) (k : Nat) : Option Row :=
  if k ≤ row.length then some (row.take k) else none

/-- The row loop of `getRowsAndCols`, propagating a projection panic. -/
def projectRows (k : Nat) : List Row → Option (List Row)
  | [] => some []
  | r :: rest =>
    match projectRow r k, projectRows k rest with
    | some r2, some rest2 => some (r2 :: rest2)
    | _, _ => none

/-- `getRowsAndCols(width, initialRows)`: fit the columns, project every row
to the visible column count. -/
def getRowsAndCols (width : Nat) (initialRows : List Row) :
    Option (List Row × List Column) :=
  (projectRows (fitColumns width).length initialRows).map
    (fun rows => (rows, fitColumns width))

/-- The bubbles `table.Model` state the view code manipulates: rows, columns,
cursor and focus.  Styling and height are presentational and omitted. -/
structure TableModel where
  rows : List Row
  cols : List Column
  cursor : Int
  focused : Bool

/-- bubbles' `clamp(v, low, high) = min(max(v, low), high)`. -/
def clamp (v low high : Int) : Int := min (max v low) high

/-- bubbles' `Model.SetCursor(n)`: `m.cursor = clamp(n, 0, len(m.rows)-1)`.
For an empty table this clamps to `-1`. -/
def setCursor (t : TableModel) (n : Int) : TableModel :=
  { t with cursor := clamp n 0 ((t.rows.length : Int) - 1) }

/-- bubbles' `Model.SelectedRow()`: the row at the cursor, `none` when the
cursor is out of range (Go returns `nil`, and any later indexing panics). -/
def selectedRow (t : TableModel) : Option Row :=
  if 0 ≤ t.cursor then t.rows.get? t.cursor.toNat else none

/-- bubbles' `Model.Update` for key messages: ignored when the table is
blurred; `up`/`down` move the cursor clamped to the row bounds; every other
key leaves the table unchanged.  (Page movement is analogous and unused by
the claims.) -/
def tableUpdate (t : TableModel) (key : String) : TableModel :=
  if !t.focused then t
  else if key = "up" then
    { t with cursor := clamp (t.cursor - 1) 0 ((t.rows.length : Int) - 1) }
  else if key = "down" then
    { t with cursor := clamp (t.cursor + 1) 0 ((t.rows.length : Int) - 1) }
  else t

/-- `getTable(rows, cols, selectable, activeRow)`: a fresh table, focused
exactly when `selectable` (`table.WithFocused(true)` is passed only in the
selectable branch), with the cursor set — and clamped — to `activeRow`. -/
def getTable (rows : List Row) (cols : List Column) (selectable : Bool)
    (activeRow : Int) : TableModel :=
  setCursor { rows := rows, cols := cols, cursor := 0, focused := selectable }
    activeRow

/-- The view's `model` struct. -/
structure Model where
  table : TableModel
  selectedProfileId : String
  selectable : Bool
  initialRows : List Row

/-- The two message kinds the view's `Update` distinguishes:
`tea.WindowSizeMsg` and `tea.KeyMsg` (by its string form). -/
inductive Msg where
  | windowSize (width : Nat)
  | key (s : String)

/-- The commands the view returns to the runtime: `tea.Quit` or `nil`. -/
inductive TeaCmd where
  | quit
  | noCmd

/-- `model.Init()`: request termination at once when not selectable. -/
def initCmd (m : Model) : TeaCmd :=
  if !m.selectable then TeaCmd.quit else TeaCmd.noCmd

/-- `model.Update(msg)`.  A window-size message recomputes the layout from
`initialRows` and rebuilds the table via `getTable`, keeping the old cursor.
`q`/`ctrl+c` clear the selection and quit; `enter` reads
`m.table.SelectedRow()[0]` — `none` models the index-out-of-range panic when
there is no selected row or it has no cell; `esc` toggles focus and, like all
remaining keys, falls through to the table's own update. -/
def update (m : Model) (msg : Msg) : Option (Model × TeaCmd) :=
  match msg with
  | .windowSize width =>
    match getRowsAndCols width m.initialRows with
    | some (rows, cols) =>
      some ({ m with table := getTable rows cols m.selectable m.table.cursor },
        TeaCmd.noCmd)
    | none => none
  | .key s =>
    if s = "q" ∨ s = "ctrl+c" then
      some ({ m with selectedProfileId := "" }, TeaCmd.quit)
    else if s = "enter" then
      match (selectedRow m.table).bind (fun row => row.get? 0) with
      | some cell => some ({ m with selectedProfileId := cell }, TeaCmd.quit)
      | none => none
    else
      let t := if s = "esc" then { m.table with focused := !m.table.focused }
        else m.table
      some ({ m with table := tableUpdate t s }, TeaCmd.noCmd)

/-- Outcome of running the event loop on a message stream. -/
inductive RunResult where
  | finished (selectedProfileId : String)
  | crashed
  | running (m : Model)

/-- The bubbletea message loop: feed messages to `update` until it returns
`tea.Quit`, whereupon the final model's `selectedProfileId` is the result;
`crashed` models a panic inside `Update`. -/
def runMsgs (m : Model) : List Msg → RunResult
  | [] => RunResult.running m
  | msg :: rest =>
    match update m msg with
    | some (m2, TeaCmd.quit) => RunResult.finished m2.selectedProfileId
    | some (m2, TeaCmd.noCmd) => runMsgs m2 rest
    | none => RunResult.crashed

/-- The model `render` constructs: formatted rows, layout fitted to the
current terminal width, table cursor at the active profile's row,
`selectedProfileId` initialised to the active id. -/
def mkModel (profileList : List Profile) (activeProfileId : String)
    (selectable : Bool) (width : Nat) : Option Model :=
  (getRowsAndCols width (renderRows profileList activeProfileId)).map
    fun rc =>
      { table := getTable rc.1 rc.2 selectable
          (activeProfileRow profileList activeProfileId),
        selectedProfileId := activeProfileId,
        selectable := selectable,
        initialRows := renderRows profileList activeProfileId }

/-- The run adapter `render`: build the model, run the program (`Init` first —
a quit there ends the program before any message is consumed), and hand the
final `selectedProfileId` back to the caller over the channel.  The terminal
width and the incoming message stream are parameters of the embedding. -/
def render (profileList : List Profile) (activeProfileId : String)
    (selectable : Bool) (width : Nat) (msgs : List Msg) : Option RunResult :=
  (mkModel profileList activeProfileId selectable width).map fun m =>
    match initCmd m with
    | TeaCmd.quit => RunResult.finished m.selectedProfileId
    | TeaCmd.noCmd => runMsgs m msgs

/-- Sample profile with a password and no private key. -/
def profA : Profile := ⟨"a", "Alpha", "host-a", 22, ⟨"root", some "hunter2", none⟩⟩

/-- Sample profile with a private-key path. -/
def profB : Profile :=
  ⟨"b", "Beta", "host-b", 2222, ⟨"admin", none, some "/home/b/.ssh/id_rsa"⟩⟩

/-- Sample profile with neither auth mode and a non-sentinel id. -/
def profPlain : Profile := ⟨"p1", "Plain", "host-p", 22, ⟨"user", none, none⟩⟩

/-- Sample profile with the "default" sentinel id but fully populated real
fields, to exhibit that the override ignores them. -/
def profDefaultFull : Profile :=
  ⟨"default", "Default", "real-host", 2022, ⟨"root", some "secret", some "/k"⟩⟩

/-- Sample profile with the "default" sentinel id carrying a password and no
private key. -/
def profDefaultPw : Profile :=
  ⟨"default", "D", "h", 22, ⟨"u", some "ab", none⟩⟩

/-- A trivial model, used only as the default of `Option.getD` below. -/
def modelDefault : Model :=
  { table := getTable [] [] false 0, selectedProfileId := "",
    selectable := false, initialRows := [] }

/-- A concrete model as built by `render` for two profiles, active "b",
selectable, at width 100 (seven visible columns). -/
def mC6 : Model := (mkModel [profA, profB] "b" true 100).getD modelDefault

/-- A concrete model as built by `render` for one profile, selectable,
width 100. -/
def mC7 : Model := (mkModel [profA] "a" true 100).getD modelDefault

/-- A concrete non-selectable model as built by `render`. -/
def mC8 : Model := (mkModel [profA] "a" false 100).getD modelDefault

/-- A concrete model whose `initialRows` have two cells, at a width that fits
one column. -/
def mC3 : Model :=
  { table := getTable [["x"]] [⟨"Id", 10⟩] true 0,
    selectedProfileId := "a", selectable := true,
    initialRows := [["x", "y"]] }

/-- The model after the user blurs the table of `mC6` with `esc`. -/
def mEsc : Option Model :=
  (mkModel [profA, profB] "a" true 100).bind fun m0 =>
    (update m0 (Msg.key "esc")).map Prod.fst

/-- The model after a subsequent resize to the same width 100. -/
def mEscResized : Option Model :=
  mEsc.bind fun m1 => (update m1 (Msg.windowSize 100)).map Prod.fst

lemma sumWidths_nil : sumWidths [] = 0 := rfl

lemma sumWidths_cons (c : Column) (cs : List Column) :
    sumWidths (c :: cs) = c.width + sumWidths cs := by
  simp [sumWidths]

lemma fitColsAux_prefixOf (W : Nat) (cs : List Column) :
    ∀ acc, fitColsAux acc W cs <+: cs := by
  induction cs with
  | nil => intro acc; exact ⟨[], rfl⟩
  | cons c rest ih =>
    intro acc
    unfold fitColsAux
    by_cases h : acc + c.width > W
    · rw [if_pos h]; exact ⟨c :: rest, rfl⟩
    · rw [if_neg h]
      obtain ⟨t, ht⟩ := ih (acc + c.width)
      exact ⟨t, by rw [List.cons_append, ht]⟩

lemma fitColsAux_sum_le (W : Nat) (cs : List Column) :
    ∀ acc, acc ≤ W → acc + sumWidths (fitColsAux acc W cs) ≤ W := by
  induction cs with
  | nil => intro acc h; simpa [fitColsAux, sumWidths] using h
  | cons c rest ih =>
    intro acc h
    unfold fitColsAux
    by_cases hc : acc + c.width > W
    · rw [if_pos hc]; simpa [sumWidths] using h
    · rw [if_neg hc]
      have h2 : acc + c.width ≤ W := Nat.le_of_not_lt hc
      have h3 := ih (acc + c.width) h2
      rw [sumWidths_cons]
      omega

lemma fitColsAux_longest (W : Nat) (cs : List Column) :
    ∀ (acc : Nat) (p : List Column), p <+: cs → acc + sumWidths p ≤ W →
      p.length ≤ (fitColsAux acc W cs).length := by
  induction cs with
  | nil =>
    intro acc p hp _
    obtain ⟨t, ht⟩ := hp
    cases p with
    | nil => simp
    | cons a q => simp at ht
  | cons c rest ih =>
    intro acc p hp hsum
    cases p with
    | nil => simp
    | cons a q =>
      obtain ⟨t, ht⟩ := hp
      rw [List.cons_append] at ht
      injection ht with h1 h2
      subst h1
      rw [sumWidths_cons] at hsum
      have hfit : ¬ acc + a.width > W := by omega
      unfold fitColsAux
      rw [if_neg hfit]
      have h4 := ih (acc + a.width) q ⟨t, h2⟩ (by omega)
      simp only [List.length_cons]
      omega

lemma get?_take_lt (l : Row) : ∀ (k i : Nat), i < k →
    (l.take k).get? i = l.get? i := by
  induction l with
  | nil => intro k i _; simp
  | cons a rest ih =>
    intro k i hik
    cases k with
    | zero => omega
    | succ k2 =>
      cases i with
      | zero => simp
      | succ i2 =>
        simpa using ih k2 i2 (by omega)

/-- Claim C1: for every available terminal width `W`, the column-fitting loop
of `getRowsAndCols` returns exactly the longest prefix of the fixed column
list whose cumulative width is at most `W`: the result is a prefix of
`columns`, its cumulative width fits, and no prefix that fits is longer. -/
theorem c1_layout_longest_fit (W : Nat) (p : List Column)
    (hp : p <+: columns) (hw : sumWidths p ≤ W) :
    fitColumns W <+: columns ∧ sumWidths (fitColumns W) ≤ W ∧
      p.length ≤ (fitColumns W).length := by
  refine ⟨fitColsAux_prefixOf W columns 0, ?_, ?_⟩
  · have h := fitColsAux_sum_le W columns 0 (Nat.zero_le W)
    simpa [fitColumns] using h
  · exact fitColsAux_longest W columns 0 p hp (by simpa using hw)

/-- Witness for C1 at width 25 and the one-column prefix. -/
theorem c1_layout_longest_fit_witness :
    fitColumns 25 <+: columns ∧ sumWidths (fitColumns 25) ≤ 25 ∧
      ([⟨"Id", 10⟩] : List Column).length ≤ (fitColumns 25).length :=
  c1_layout_longest_fit 25 [⟨"Id", 10⟩]
    ⟨[⟨"Name", 20⟩, ⟨"Active", 10⟩, ⟨"Hostname", 15⟩, ⟨"SSH port", 10⟩,
      ⟨"SSH user", 10⟩, ⟨"SSH password", 15⟩, ⟨"SSH private key path", 20⟩],
      rfl⟩
    (by decide)

/-- Claim C9: for every row `R` and visible-column count `k` with
`k ≤ len(schema)` and `k ≤ len(R)`, the projection used by `getRowsAndCols`
yields exactly the first `k` cells of `R` — a row of length `k` agreeing with
`R` on every index below `k` — and with `k = 0` every row projects to the
empty row without failing. -/
theorem c9_project_take (R : Row) (k : Nat) (hks : k ≤ columns.length)
    (hkR : k ≤ R.length) :
    projectRow R k = some (R.take k) ∧ (R.take k).length = k ∧
      (∀ i, i < k → (R.take k).get? i = R.get? i) ∧
      projectRow R 0 = some [] := by
  refine ⟨?_, ?_, ?_, ?_⟩
  · simp [projectRow, hkR]
  · simp [List.length_take, Nat.min_eq_left hkR]
  · intro i hi; exact get?_take_lt R k i hi
  · simp [projectRow]

/-- Witness for C9 on the formatted row of `profA` and `k = 2`. -/
theorem c9_project_take_witness :
    projectRow (formatRow profA "a") 2 = some ((formatRow profA "a").take 2) ∧
      ((formatRow profA "a").take 2).length = 2 ∧
      (∀ i, i < 2 →
        ((formatRow profA "a").take 2).get? i = (formatRow profA "a").get? i) ∧
      projectRow (formatRow profA "a") 0 = some [] :=
  c9_project_take (formatRow profA "a") 2 (by decide) (by decide)

/-- Claim C5: formatting any entity whose identifier is the "default"
sentinel, regardless of its stored hostname, port, user, or auth fields,
yields "-" in every column from host through key-path, keeping only id, name
and the active-flag text. -/
theorem c5_default_override (p : Profile) (a : String) (h : p.id = "default") :
    formatRow p a =
      [p.id, p.name, boolText (p.id == a), "-", "-", "-", "-", "-"] := by
  simp only [formatRow]
  rw [if_pos h]

/-- Witness for C5: a "default"-id profile with a real hostname, port, user,
password and key path still formats to dashes from host onwards. -/
theorem c5_default_override_witness :
    formatRow profDefaultFull "b" =
      [profDefaultFull.id, profDefaultFull.name,
       boolText (profDefaultFull.id == "b"), "-", "-", "-", "-", "-"] :=
  c5_default_override profDefaultFull "b" rfl

/-- Counterexample to claim C4 as stated: `profDefaultPw` carries the password
"ab" (two bytes) and no private-key path, yet its formatted password cell is
"-", not the two-star mask, because the "default" sentinel override takes
precedence over the redaction rule. -/
theorem c4_counterexample :
    profDefaultPw.auth.password = some "ab" ∧
    profDefaultPw.auth.privateKeyPath = none ∧
    (formatRow profDefaultPw "x").get? 6 = some "-" ∧
    (formatRow profDefaultPw "x").get? 6 ≠ some (starMask 2) := by
  refine ⟨rfl, rfl, rfl, ?_⟩
  decide

/-- Claim C4 as amended: for any entity whose identifier is neither sentinel
("default", "+"), an entity with a password of byte length n and no
private-key path formats with password cell exactly n stars and key-path cell
"-"; an entity with a private-key path formats with password cell "-" and
key-path cell the path verbatim, the private-key case taking precedence when
both are present. -/
theorem c4_redaction (p : Profile) (a : String)
    (hd : p.id ≠ "default") (hn : p.id ≠ NewProfileId) :
    (p.auth.privateKeyPath = none →
      ∀ pw, p.auth.password = some pw →
        (formatRow p a).get? 6 = some (starMask pw.utf8ByteSize) ∧
        (formatRow p a).get? 7 = some "-") ∧
    (∀ path, p.auth.privateKeyPath = some path →
      (formatRow p a).get? 6 = some "-" ∧
      (formatRow p a).get? 7 = some path) := by
  constructor
  · intro hk pw hpw
    simp only [formatRow]
    rw [if_neg hd, if_neg hn, hk, hpw]
    exact ⟨rfl, rfl⟩
  · intro path hpath
    simp only [formatRow]
    rw [if_neg hd, if_neg hn, hpath]
    exact ⟨rfl, rfl⟩

/-- Witness for the amended C4 at `profA` (password "hunter2", no key) and
`profB` (key path, no password): both branches applied concretely. -/
theorem c4_redaction_witness :
    ((profA.auth.privateKeyPath = none →
      ∀ pw, profA.auth.password = some pw →
        (formatRow profA "a").get? 6 = some (starMask pw.utf8ByteSize) ∧
        (formatRow profA "a").get? 7 = some "-") ∧
    (∀ path, profA.auth.privateKeyPath = some path →
      (formatRow profA "a").get? 6 = some "-" ∧
      (formatRow profA "a").get? 7 = some path)) ∧
    (formatRow profA "a").get? 6 = some (starMask 7) :=
  ⟨c4_redaction profA "a" (by decide) (by decide),
   ((c4_redaction profA "a" (by decide) (by decide)).1 rfl "hunter2" rfl).1⟩

/-- Counterexample to claim C2 as stated: `profPlain` carries neither a
password nor a private-key path and has a non-sentinel id, and its formatted
row has 6 cells, not the full schema length 8. -/
theorem c2_counterexample :
    profPlain.auth.password = none ∧ profPlain.auth.privateKeyPath = none ∧
    (formatRow profPlain "a").length = 6 ∧ columns.length = 8 ∧
    (formatRow profPlain "a").length ≠ columns.length := by
  refine ⟨rfl, rfl, rfl, rfl, ?_⟩
  decide

/-- Claim C2 as amended: a formatted row has cell count equal to the full
column schema length exactly when the entity carries a private-key path or a
password, or its identifier is one of the sentinels "default" and "+"; an
entity with neither auth mode and a non-sentinel identifier yields a 6-cell
row instead. -/
theorem c2_row_arity (p : Profile) (a : String) :
    (formatRow p a).length = columns.length ↔
      (p.auth.privateKeyPath.isSome ∨ p.auth.password.isSome ∨
        p.id = "default" ∨ p.id = NewProfileId) := by
  by_cases hd : p.id = "default"
  · simp only [formatRow]
    rw [if_pos hd]
    simp [columns, hd]
  · by_cases hn : p.id = NewProfileId
    · simp only [formatRow]
      rw [if_neg hd, if_pos hn]
      simp [columns, hn]
    · cases hk : p.auth.privateKeyPath with
      | some path =>
        simp only [formatRow]
        rw [if_neg hd, if_neg hn, hk]
        simp [columns]
      | none =>
        cases hpw : p.auth.password with
        | some pw =>
          simp only [formatRow]
          rw [if_neg hd, if_neg hn, hk, hpw]
          simp [columns]
        | none =>
          simp only [formatRow]
          rw [if_neg hd, if_neg hn, hk, hpw]
          simp [columns, hd, hn]

/-- Counterexample to claim C3 as stated: in the reachable selectable model
for `[profA, profB]` at width 100, after `esc` the table is blurred
(`focused = false`), but the very next resize rebuilds the table focused
(`focused = true`) — a blurred table does not stay blurred across a resize. -/
theorem c3_counterexample :
    (mEsc.map fun m => m.table.focused) = some false ∧
    (mEscResized.map fun m => m.table.focused) = some true :=
  ⟨rfl, rfl⟩

/-- Claim C3 as amended: on a resize event the state machine recomputes the
layout from the original full (unprojected) row set `initialRows` and keeps
the cursor at its previous row clamped to the valid range, but the rebuilt
table's focus is taken from the `selectable` flag rather than from the prior
focus state — a blurred selectable table comes back focused. -/
theorem c3_resize (m : Model) (W : Nat) (rows : List Row) (cols : List Column)
    (h : getRowsAndCols W m.initialRows = some (rows, cols)) :
    update m (Msg.windowSize W) =
      some ({ m with table := getTable rows cols m.selectable m.table.cursor },
        TeaCmd.noCmd) ∧
    (getTable rows cols m.selectable m.table.cursor).focused = m.selectable ∧
    (getTable rows cols m.selectable m.table.cursor).cursor =
      clamp m.table.cursor 0 ((rows.length : Int) - 1) ∧
    (getTable rows cols m.selectable m.table.cursor).rows = rows ∧
    projectRows (fitColumns W).length m.initialRows = some rows ∧
    cols = fitColumns W := by
  have hsplit : projectRows (fitColumns W).length m.initialRows = some rows ∧
      cols = fitColumns W := by
    unfold getRowsAndCols at h
    cases hp : projectRows (fitColumns W).length m.initialRows with
    | none => rw [hp] at h; simp at h
    | some rs =>
      rw [hp] at h
      have h2 := Option.some.inj h
      have hfst := congrArg Prod.fst h2
      have hsnd := congrArg Prod.snd h2
      simp at hfst hsnd
      exact ⟨congrArg some hfst, hsnd.symm⟩
  refine ⟨?_, rfl, rfl, rfl, hsplit.1, hsplit.2⟩
  simp only [update]
  rw [h]

/-- Witness for the amended C3 at the concrete model `mC3` and width 15. -/
theorem c3_resize_witness :
    update mC3 (Msg.windowSize 15) =
      some ({ mC3 with
        table := getTable [["x"]] [⟨"Id", 10⟩] mC3.selectable mC3.table.cursor },
        TeaCmd.noCmd) ∧
    (getTable [["x"]] [⟨"Id", 10⟩] mC3.selectable mC3.table.cursor).focused =
      mC3.selectable ∧
    (getTable [["x"]] [⟨"Id", 10⟩] mC3.selectable mC3.table.cursor).cursor =
      clamp mC3.table.cursor 0 ((([["x"]] : List Row).length : Int) - 1) ∧
    (getTable [["x"]] [⟨"Id", 10⟩] mC3.selectable mC3.table.cursor).rows =
      [["x"]] ∧
    projectRows (fitColumns 15).length mC3.initialRows = some [["x"]] ∧
    [⟨"Id", 10⟩] = fitColumns 15 :=
  c3_resize mC3 15 [["x"]] [⟨"Id", 10⟩] rfl

/-- Claim C6: pressing enter — in either focus state, since `Update` does not
consult focus for it — terminates the interaction with the selection result
equal to the first cell of the row at the current cursor position. -/
theorem c6_confirm (m : Model) (row : Row) (cell : String)
    (h1 : selectedRow m.table = some row) (h2 : row.get? 0 = some cell) :
    update m (Msg.key "enter") =
      some ({ m with selectedProfileId := cell }, TeaCmd.quit) ∧
    runMsgs m [Msg.key "enter"] = RunResult.finished cell := by
  have hu : update m (Msg.key "enter") =
      some ({ m with selectedProfileId := cell }, TeaCmd.quit) := by
    simp only [update]
    rw [h1]
    simp only [Option.some_bind]
    rw [h2]
    simp
  exact ⟨hu, by simp only [runMsgs, hu]⟩

/-- Witness for C6: in the concrete model `mC6` (cursor on the row of profile
"b") enter confirms with "b". -/
theorem c6_confirm_witness :
    update mC6 (Msg.key "enter") =
      some ({ mC6 with selectedProfileId := "b" }, TeaCmd.quit) ∧
    runMsgs mC6 [Msg.key "enter"] = RunResult.finished "b" :=
  c6_confirm mC6 ((formatRow profB "b").take 7) "b" rfl rfl

/-- Claim C7: either quit key ("q" or "ctrl+c"), in any state, terminates the
interaction with an empty-string selection result, and the `render` call hands
that empty string back to the caller. -/
theorem c7_quit (m : Model) (k : String) (hk : k = "q" ∨ k = "ctrl+c")
    (rest : List Msg) :
    update m (Msg.key k) =
      some ({ m with selectedProfileId := "" }, TeaCmd.quit) ∧
    runMsgs m (Msg.key k :: rest) = RunResult.finished "" ∧
    (∀ profileList a W, mkModel profileList a true W = some m →
      render profileList a true W (Msg.key k :: rest) =
        some (RunResult.finished "")) := by
  have hu : update m (Msg.key k) =
      some ({ m with selectedProfileId := "" }, TeaCmd.quit) := by
    simp only [update]
    rw [if_pos hk]
  have hrun : runMsgs m (Msg.key k :: rest) = RunResult.finished "" := by
    simp only [runMsgs, hu]
  refine ⟨hu, hrun, ?_⟩
  intro profileList a W hm
  have hsel : m.selectable = true := by
    unfold mkModel at hm
    cases hrc : getRowsAndCols W (renderRows profileList a) with
    | none => rw [hrc] at hm; simp at hm
    | some rc =>
      rw [hrc] at hm
      have h2 := Option.some.inj hm
      rw [← h2]
  unfold render
  rw [hm]
  simp only [Option.map_some']
  have hinit : initCmd m = TeaCmd.noCmd := by
    simp [initCmd, hsel]
  rw [hinit, hrun]

/-- Witness for C7 at the concrete model `mC7` and the "q" key. -/
theorem c7_quit_witness :
    update mC7 (Msg.key "q") =
      some ({ mC7 with selectedProfileId := "" }, TeaCmd.quit) ∧
    runMsgs mC7 [Msg.key "q"] = RunResult.finished "" ∧
    (∀ profileList a W, mkModel profileList a true W = some mC7 →
      render profileList a true W [Msg.key "q"] =
        some (RunResult.finished "")) :=
  c7_quit mC7 "q" (Or.inl rfl) []

/-- Claim C8: with `selectable = false` the component never becomes
interactive: the model is built with an unfocused table, `Init` immediately
requests termination, and the result handed back equals the pre-supplied
active identifier whatever messages arrive. -/
theorem c8_static (profileList : List Profile) (a : String) (W : Nat)
    (msgs : List Msg) (m : Model)
    (hm : mkModel profileList a false W = some m) :
    initCmd m = TeaCmd.quit ∧ m.table.focused = false ∧
    m.selectedProfileId = a ∧
    render profileList a false W msgs = some (RunResult.finished a) := by
  obtain ⟨rc, hrc⟩ : ∃ rc,
      getRowsAndCols W (renderRows profileList a) = some rc := by
    unfold mkModel at hm
    cases hrc : getRowsAndCols W (renderRows profileList a) with
    | none => rw [hrc] at hm; simp at hm
    | some rc => exact ⟨rc, rfl⟩
  have hmeq : m =
      { table := getTable rc.1 rc.2 false (activeProfileRow profileList a),
        selectedProfileId := a, selectable := false,
        initialRows := renderRows profileList a } := by
    unfold mkModel at hm
    rw [hrc] at hm
    exact (Option.some.inj hm).symm
  subst hmeq
  refine ⟨rfl, rfl, rfl, ?_⟩
  unfold render mkModel
  rw [hrc]
  rfl

/-- Witness for C8 at the concrete model `mC8`; a pending enter key is ignored
because the program already quit at `Init`. -/
theorem c8_static_witness :
    initCmd mC8 = TeaCmd.quit ∧ mC8.table.focused = false ∧
    mC8.selectedProfileId = "a" ∧
    render [profA] "a" false 100 [Msg.key "enter"] =
      some (RunResult.finished "a") :=
  c8_static [profA] "a" 100 [Msg.key "enter"] mC8 rfl

/-- Claim C10: the confirm transition is not total. In the reachable state for
an empty entity list the cursor is clamped to -1 and `SelectedRow()` has no
row, and at a width below the first column every projected row has zero cells;
in both cases enter evaluates `SelectedRow()[0]` out of bounds — the run
crashes rather than producing a defined result. -/
theorem c10_confirm_partial :
    render [] "b" true 100 [Msg.key "enter"] = some RunResult.crashed ∧
    render [profA] "a" true 5 [Msg.key "enter"] = some RunResult.crashed :=
  ⟨rfl, rfl⟩

end ProfileList
